import Mathlib

/-!
Shallow embedding of the R36Shell interactive shell engine
(src/Terminal/r36s_terminal.py) and proofs of the specification claims.

Python strings are modelled as Lean `String`/`List Char` (the byte/unicode
distinction is irrelevant to the verified properties), Python `int` as `Int`,
Python lists as Lean lists.  Stateful methods of the `ShellExecutor` class
become pure functions threading an explicit `ShellExecutor` state record.
External effects (subprocess results, the executable search path, the file
system) are passed in as explicit inputs.
-/

namespace R36Shell

/-! ### Python string primitives -/

/-- Whitespace characters recognised by Python `str.strip` / `str.isspace`
(`Py_UNICODE_ISSPACE`): the ASCII controls `\t`-`\r`, the separators
`0x1c`-`0x1f`, space, NEL, NBSP, and the Unicode space separators. -/
def isPySpace (c : Char) : Bool :=
  let n := c.toNat
  (0x9 ≤ n && n ≤ 0xd) || (0x1c ≤ n && n ≤ 0x1f) || n = 0x20 ||
    n = 0x85 || n = 0xa0 || n = 0x1680 || (0x2000 ≤ n && n ≤ 0x200a) ||
    n = 0x2028 || n = 0x2029 || n = 0x202f || n = 0x205f || n = 0x3000

/-- Python `str.strip()` on the ASCII whitespace set. -/
def pyStrip (s : String) : String :=
  String.mk (((s.toList.dropWhile isPySpace).reverse.dropWhile isPySpace).reverse)

/-- Python `str.lstrip()`. -/
def pyLStrip (s : String) : String :=
  String.mk (s.toList.dropWhile isPySpace)

/-- Python `str.startswith`, as a structurally computable test. -/
def pyStartsWith (s pre : String) : Bool :=
  pre.toList.isPrefixOf s.toList

/-- ASCII decimal digit test (Python `str.isdigit` restricted to ASCII). -/
def isAsciiDigit (c : Char) : Bool :=
  '0' ≤ c && c ≤ '9'

/-- Numeric value of a digit string (no sign), as used by Python `int` on a
string that passed `str.isdigit`. -/
def digitsToInt (cs : List Char) : Int :=
  cs.foldl (fun n c => 10 * n + (Int.ofNat (c.toNat - '0'.toNat))) 0

/-- Start codepoints of the non-ASCII decimal-digit (general category Nd)
runs: every Nd block is a contiguous run `base..base+9` with digit values
0-9 (Unicode 15.0, as consulted by CPython's `int()`). -/
def ndBases : List Nat :=
  [0x660, 0x6f0, 0x7c0, 0x966, 0x9e6, 0xa66, 0xae6, 0xb66, 0xbe6, 0xc66,
   0xce6, 0xd66, 0xde6, 0xe50, 0xed0, 0xf20, 0x1040, 0x1090, 0x17e0,
   0x1810, 0x1946, 0x19d0, 0x1a80, 0x1a90, 0x1b50, 0x1bb0, 0x1c40, 0x1c50,
   0xa620, 0xa8d0, 0xa900, 0xa9d0, 0xa9f0, 0xaa50, 0xabf0, 0xff10,
   0x104a0, 0x10d30, 0x11066, 0x110f0, 0x11136, 0x111d0, 0x112f0, 0x11450,
   0x114d0, 0x11650, 0x116c0, 0x11730, 0x118e0, 0x11950, 0x11c50, 0x11d50,
   0x11da0, 0x11f50, 0x16a60, 0x16ac0, 0x16b50, 0x1d7ce, 0x1d7d8, 0x1d7e2,
   0x1d7ec, 0x1d7f6, 0x1e140, 0x1e2f0, 0x1e4f0, 0x1e950, 0x1fbf0]

/-- Decimal value of a Unicode decimal digit (category Nd), as accepted by
Python `int()`; `none` for every other character. -/
def pyDigitVal? (c : Char) : Option Nat :=
  let n := c.toNat
  if 0x30 ≤ n ∧ n ≤ 0x39 then some (n - 0x30)
  else (ndBases.find? (fun b => b ≤ n && n ≤ b + 9)).map (fun b => n - b)

/-- Helper consuming the digit-and-underscore body of a Python integer
literal: decimal digits (any Nd script) with single underscores strictly
between digits. Returns the accumulated value if the whole list is
consumed legally. -/
def pyIntBody : Int → List Char → Option Int
  | acc, [] => some acc
  | acc, c :: cs =>
      if c = '_' then
        match cs with
        | [] => none
        | c2 :: cs2 =>
            match pyDigitVal? c2 with
            | some d => pyIntBody (10 * acc + (d : Int)) cs2
            | none => none
      else
        match pyDigitVal? c with
        | some d => pyIntBody (10 * acc + (d : Int)) cs
        | none => none

/-- Whether a character list starts with a decimal digit. -/
def headIsDigit : List Char → Bool
  | [] => false
  | c :: _ => (pyDigitVal? c).isSome

/-- Model of Python `int(s)` for a decimal string: optional surrounding
whitespace, optional ASCII sign, then decimal digits of any script (with
underscore separators).  `none` models a raised `ValueError`. -/
def pyInt? (s : String) : Option Int :=
  match (pyStrip s).toList with
  | [] => none
  | c :: rest =>
      if c = '+' then (if headIsDigit rest then pyIntBody 0 rest else none)
      else if c = '-' then
        (if headIsDigit rest then (pyIntBody 0 rest).map Int.neg else none)
      else if headIsDigit (c :: rest) then pyIntBody 0 (c :: rest) else none

/-! ### Executor state -/

/-- One history record: Python dict `{"index": int, "command": str}`. -/
structure HEntry where
  index : Int
  command : String
deriving Repr, DecidableEq

/-- The slice of the Python `ShellExecutor` object state that the verified
operations read or write.  `env` models `os.environ` as an association list
in insertion order; `output_lines` models the `deque(maxlen=500)` output
log. -/
structure ShellExecutor where
  cwd : String
  env : List (String × String)
  output_lines : List String
  command_history : List HEntry
  history_next_index : Int
  history_index : Int
  active_user : String
  real_user : String
  hostname : String
  active_env : Option String
  in_editor_mode : Bool
  in_pty_mode : Bool
deriving Repr, DecidableEq

/-- Append one line to the bounded output log (`deque(maxlen=500)`): the
oldest lines are evicted once the capacity is exceeded. -/
def addOutputLine (ls : List String) (line : String) : List String :=
  let ls' := ls ++ [line]
  if 500 < ls'.length then ls'.drop (ls'.length - 500) else ls'

/-- Method `add_output` for a single string argument. -/
def addOutput (st : ShellExecutor) (line : String) : ShellExecutor :=
  { st with output_lines := addOutputLine st.output_lines line }

/-- Method `get_prompt_symbol`. -/
def getPromptSymbol (st : ShellExecutor) : String :=
  if st.active_user = "root" then "#" else "$"

/-- Method `get_prompt_text` (without trailing space, as used by
`execute_command`). -/
def getPromptText (st : ShellExecutor) : String :=
  let envPre := match st.active_env with
    | some e => s!"({e}) "
    | none => ""
  s!"{envPre}{st.active_user}@{st.hostname}{getPromptSymbol st}"

/-! ### History store (`load_history` / `save_history` / `add_history_entry` /
`clear_history` / `get_history_entry` / `resolve_history_reference`) -/

/-- The trim applied in `add_history_entry` and `load_history`:
`history[-max_history:]` once the retained size exceeds `max_history`
(`max_history = 0` is falsy in Python, meaning no cap). -/
def trimEntries (max_history : Nat) (entries : List HEntry) : List HEntry :=
  if max_history ≠ 0 ∧ max_history < entries.length then
    entries.drop (entries.length - max_history)
  else entries

/-- Method `add_history_entry` (the `save_history` call performs I/O only and
is modelled separately by `saveHistoryDoc`). -/
def addHistoryEntry (max_history : Nat) (st : ShellExecutor) (command : String) :
    ShellExecutor :=
  let entry : HEntry := ⟨st.history_next_index, command⟩
  let hist := trimEntries max_history (st.command_history ++ [entry])
  { st with
      command_history := hist
      history_next_index := st.history_next_index + 1
      history_index := hist.length }

/-- Method `clear_history`. -/
def clearHistory (st : ShellExecutor) : ShellExecutor :=
  { st with
      command_history := []
      history_index := -1
      history_next_index := 1 }

/-- Method `get_history_entry`: first stored entry with the given index. -/
def getHistoryEntry (st : ShellExecutor) (index : Int) : Option HEntry :=
  st.command_history.find? (fun e => e.index = index)

/-- Method `resolve_history_reference`: recognise `!N`, returning the stored
command text (with a recall output line) or reporting a missing-index error
(`none` models Python returning `None`). -/
def resolveHistoryReference (st : ShellExecutor) (command : String) :
    ShellExecutor × Option String :=
  let stripped := pyStrip command
  if pyStartsWith stripped "!" ∧ (stripped.drop 1) ≠ "" ∧
      (stripped.drop 1).toList.all isAsciiDigit then
    let index := digitsToInt (stripped.drop 1).toList
    match getHistoryEntry st index with
    | none => (addOutput st s!"[Error] history: no entry at index {index}", none)
    | some entry =>
        (addOutput st s!"[History] Recalled [{index}] {entry.command}",
         some entry.command)
  else (st, some command)

/-- The condition and value under which `resolve_history_reference` treats
the input as a history reference `!N`. -/
def historyRefIndex (command : String) : Option Int :=
  let stripped := pyStrip command
  if pyStartsWith stripped "!" ∧ (stripped.drop 1) ≠ "" ∧
      (stripped.drop 1).toList.all isAsciiDigit then
    some (digitsToInt (stripped.drop 1).toList)
  else none

/-- The entry/recording segment of method `execute_command` (source lines
1233-1257): empty-input, editor-mode and PTY-mode short circuits, history
reference resolution, history append, and the echoed prompt line.  The
returned `Option String` is the command text that proceeds to the built-in /
execution dispatch that follows in the source (`none`: nothing is
dispatched).  `now` stands for the wall-clock timestamp string. -/
def executeCommand (max_history : Nat) (now : String) (st : ShellExecutor)
    (command : String) : ShellExecutor × Option String :=
  if pyStrip command = "" then (st, none)
  else if st.in_editor_mode then
    (addOutput st "[System] Finish the editor session before running commands.", none)
  else if st.in_pty_mode then (st, none)
  else
    match resolveHistoryReference st command with
    | (st', none) => (st', none)
    | (st', some resolved) =>
        let st2 := addHistoryEntry max_history st' resolved
        let prompt := getPromptText st2
        let st3 := addOutput st2 s!"[{now}] {prompt} {resolved}"
        (st3, some resolved)

/-- Decidable form of the history-store invariant: every stored index is
strictly below the `history_next_index` counter. -/
def histInvariant (st : ShellExecutor) : Bool :=
  st.command_history.all (fun e => e.index < st.history_next_index)

/-- History-store operations considered by the monotonicity claim: an
`add_history_entry` call or a trim to the retained cap (both under a
configured `max_history`). -/
inductive HistOp where
  | add (max_history : Nat) (command : String)
  | trim (max_history : Nat)
deriving Repr, DecidableEq

/-- Apply one history operation. -/
def applyHistOp (st : ShellExecutor) : HistOp → ShellExecutor
  | .add m c => addHistoryEntry m st c
  | .trim m => { st with command_history := trimEntries m st.command_history }

/-- Run a sequence of history operations. -/
def runHistOps (st : ShellExecutor) (ops : List HistOp) : ShellExecutor :=
  ops.foldl applyHistOp st

/-- Run a sequence of plain `add_history_entry` calls. -/
def runAppends (max_history : Nat) (st : ShellExecutor) (cmds : List String) :
    ShellExecutor :=
  cmds.foldl (addHistoryEntry max_history) st

/-! ### History persistence (`save_history` / `load_history`) -/

/-- JSON values as produced by `json.dump` / consumed by `json.load`. -/
inductive JVal where
  | jnull
  | jbool (b : Bool)
  | jint (n : Int)
  | jstr (s : String)
  | jlist (items : List JVal)
  | jobj (fields : List (String × JVal))

/-- Python `dict.get` on a JSON object (keys are unique in every document the
program writes; the first binding is taken). -/
def jLookup (fields : List (String × JVal)) (key : String) : Option JVal :=
  (fields.find? (fun f => f.1 = key)).map (·.2)

/-- Method `save_history`: the JSON document written to the history file
(the file I/O itself is external). -/
def saveHistoryDoc (st : ShellExecutor) : JVal :=
  .jobj [("next_index", .jint st.history_next_index),
         ("entries", .jlist (st.command_history.map (fun e =>
            .jobj [("index", .jint e.index), ("command", .jstr e.command)])))]

/-- The validation loop of `load_history`: keep only dict entries carrying a
string `command` and an int `index`. -/
def cleanLoadedEntries (items : List JVal) : List HEntry :=
  items.filterMap (fun item =>
    match item with
    | .jobj f =>
        match jLookup f "command", jLookup f "index" with
        | some (.jstr c), some (.jint i) => some ⟨i, c⟩
        | _, _ => none
    | _ => none)

/-- Method `load_history`, applied to an already-parsed JSON payload
(`none` models the uncaught `AttributeError` that a non-dict payload raises
on `payload.get`; a missing/corrupt file never reaches this point — the
enclosing try returns early, leaving the state unchanged). -/
def loadHistoryDoc (max_history : Nat) (st : ShellExecutor) (payload : JVal) :
    Option ShellExecutor :=
  match payload with
  | .jobj fields =>
      let entries := (jLookup fields "entries").getD (.jlist [])
      match entries with
      | .jlist items =>
          let cleaned := trimEntries max_history (cleanLoadedEntries items)
          let st1 := { st with
            command_history := cleaned
            history_index := cleaned.length }
          match jLookup fields "next_index" with
          | some (.jint n) =>
              if 0 < n then some { st1 with history_next_index := n }
              else some (loadFallbackNext st1 cleaned)
          | _ => some (loadFallbackNext st1 cleaned)
      | _ => some st
  | _ => none
where
  /-- The `elif cleaned:` fallback: `max(stored indices) + 1`, or the counter
  untouched when nothing was loaded. -/
  loadFallbackNext (st1 : ShellExecutor) : List HEntry → ShellExecutor
    | [] => st1
    | e :: rest =>
        { st1 with
            history_next_index := (rest.foldl (fun m x => max m x.index) e.index) + 1 }

/-! ### Environment probe (`apply_shell_environment`) -/

/-- Outcome of the `subprocess.run` probe invocation: either a raised
exception or a completed process with exit status, stdout and stderr
(byte strings modelled as `String`). -/
inductive ProbeOutcome where
  | exn (msg : String)
  | run (returncode : Int) (stdout : String) (stderr : String)
deriving Repr, DecidableEq

/-- Index of the first newline in a string (Python `bytes.find(b"\n")`),
`none` when absent. -/
def findNewline (s : String) : Option Nat :=
  (s.toList.findIdx? (fun c => c = '\n'))

/-- Python `bytes.split(b"\x00")`. -/
def splitNul (s : String) : List String :=
  s.toList.splitOn '\x00' |>.map String.mk

/-- Parse the `env -0` dump exactly as the source loop does: skip empty
items, split each at the first `=` (items without `=` raise and are
skipped). -/
def parseEnvBlob (blob : String) : List (String × String) :=
  (splitNul blob).filterMap (fun item =>
    if item = "" then none
    else
      match item.toList.splitOn '=' with
      | [_] => none
      | k :: rest => some (String.mk k, String.intercalate "=" (rest.map String.mk))
      | [] => none)

/-- Insert a key into an association-list mapping, replacing an existing
binding in place (Python dict update order). -/
def envSet (env : List (String × String)) (k v : String) : List (String × String) :=
  if env.any (fun p => p.1 = k) then
    env.map (fun p => if p.1 = k then (k, v) else p)
  else env ++ [(k, v)]

/-- The wholesale `os.environ` replacement of `apply_shell_environment`:
every key absent from the dump is removed, then every dumped pair is set. -/
def replaceEnviron (old new : List (String × String)) : List (String × String) :=
  let kept := old.filter (fun p => new.any (fun q => q.1 = p.1))
  new.foldl (fun acc kv => envSet acc kv.1 kv.2) kept

/-- Method `apply_shell_environment` (source lines 536-595).  The probe
subprocess result is an explicit input; `chdirOk` tells whether `os.chdir`
into a directory succeeds.  Returns the Python boolean result together with
the updated state. -/
def applyShellEnvironment (chdirOk : String → Bool) (st : ShellExecutor)
    (probe : ProbeOutcome) (description : String) : Bool × ShellExecutor :=
  match probe with
  | .exn e => (false, addOutput st s!"[Error] {description}: {e}")
  | .run rc out errBytes =>
      if rc ≠ 0 then
        let err := pyStrip errBytes
        (false, addOutput st
          (s!"[Error] {description} failed (exit {rc})" ++
            (if err ≠ "" then s!": {err}" else "")))
      else
        match findNewline out with
        | none => (false, addOutput st s!"[Error] {description}: unexpected output")
        | some nl =>
            let pwdLine := pyStrip (String.mk (out.toList.take nl))
            let envBlob := String.mk (out.toList.drop (nl + 1))
            let st1 :=
              if pyStartsWith pwdLine "__PWD__" then
                let newCwd := pwdLine.drop 7
                if newCwd ≠ "" then
                  let st' := { st with cwd := newCwd }
                  if chdirOk newCwd then st'
                  else addOutput st' s!"[Error] Could not chdir to \x27{newCwd}\x27"
                else st
              else st
            let newEnv := parseEnvBlob envBlob
            (true, { st1 with env := replaceEnviron st1.env newEnv })

/-- Whether the probe stdout carries the sentinel trailer the mechanism
relies on: a first line that (after stripping) starts with the `__PWD__`
marker printed by the wrapped probe command (source lines 538-542, 569). -/
def probeSentinelOk (out : String) : Bool :=
  match findNewline out with
  | none => false
  | some nl => pyStartsWith (pyStrip (String.mk (out.toList.take nl))) "__PWD__"

/-- The failure conditions of `apply_shell_environment` that the source
reports: a raised spawn exception, a nonzero exit status, or stdout with no
newline at all. -/
def probeFails (probe : ProbeOutcome) : Bool :=
  match probe with
  | .exn _ => true
  | .run rc out _ => rc ≠ 0 || (findNewline out).isNone

/-! ### Alias resolution (`resolve_command_alias`) and the `shlex.split`
tokenizer it relies on -/

/-- Lexer modes of Python `shlex` in POSIX mode with `whitespace_split`:
plain scanning, escape pending, inside single quotes, inside double quotes,
escape pending inside double quotes. -/
inductive ShlexMode where
  | norm
  | esc
  | single
  | double
  | doubleEsc
deriving Repr, DecidableEq

/-- Python `shlex.split(s, posix=True)` restricted to its default
configuration (whitespace `' \t\r\n'`, quotes `'` and `"`, escape `\`,
escaped quotes `"`).  `none` models the `ValueError` raised on an
unterminated quote or a trailing escape character.  `cur`/`has` carry the
token under construction and whether a (possibly empty) quoted token
exists. -/
def shlexRun : ShlexMode → List Char → Bool → List String → List Char →
    Option (List String)
  | .norm, cur, has, acc, [] =>
      some (if cur ≠ [] ∨ has then acc ++ [String.mk cur] else acc)
  | .norm, cur, has, acc, c :: cs =>
      if c = ' ' ∨ c = '\t' ∨ c = '\r' ∨ c = '\n' then
        if cur ≠ [] ∨ has then shlexRun .norm [] false (acc ++ [String.mk cur]) cs
        else shlexRun .norm [] false acc cs
      else if c = '\x27' then shlexRun .single cur true acc cs
      else if c = '"' then shlexRun .double cur true acc cs
      else if c = '\\' then shlexRun .esc cur has acc cs
      else shlexRun .norm (cur ++ [c]) has acc cs
  | .esc, _, _, _, [] => none
  | .esc, cur, has, acc, c :: cs => shlexRun .norm (cur ++ [c]) has acc cs
  | .single, _, _, _, [] => none
  | .single, cur, has, acc, c :: cs =>
      if c = '\x27' then shlexRun .norm cur has acc cs
      else shlexRun .single (cur ++ [c]) has acc cs
  | .double, _, _, _, [] => none
  | .double, cur, has, acc, c :: cs =>
      if c = '"' then shlexRun .norm cur has acc cs
      else if c = '\\' then shlexRun .doubleEsc cur has acc cs
      else shlexRun .double (cur ++ [c]) has acc cs
  | .doubleEsc, _, _, _, [] => none
  | .doubleEsc, cur, has, acc, c :: cs =>
      if c = '"' ∨ c = '\\' then shlexRun .double (cur ++ [c]) has acc cs
      else shlexRun .double (cur ++ ['\\', c]) has acc cs

/-- Python `shlex.split(s, posix=True)`. -/
def shlexSplit (s : String) : Option (List String) :=
  shlexRun .norm [] false [] s.toList

/-- The fixed alias table of `resolve_command_alias`. -/
def aliasMap (name : String) : Option String :=
  if name = "py" then some "python3"
  else if name = "python" then some "python3"
  else if name = "ipy" then some "ipython3"
  else if name = "ipython" then some "ipython3"
  else none

/-- Method `resolve_command_alias` (source lines 650-679).  `which` stands
for `shutil.which`: whether a name resolves on the executable search path.
Returns the (possibly rewritten) command and the optional alias note. -/
def resolveCommandAlias (which : String → Bool) (command : String) :
    String × Option String :=
  let stripped := pyLStrip command
  if stripped = "" then (command, none)
  else if pyStartsWith stripped "\x27" ∨ pyStartsWith stripped "\"" then (command, none)
  else
    match shlexSplit stripped with
    | none => (command, none)
    | some [] => (command, none)
    | some (first :: _) =>
        match aliasMap first with
        | none => (command, none)
        | some target =>
            if which first then (command, none)
            else if ¬ which target then (command, none)
            else
              let leadingWs := String.mk (command.toList.take
                (command.length - stripped.length))
              (leadingWs ++ target ++ stripped.drop first.length,
               some s!"{first} → {target}")

/-- The classifier stage of `resolve_command_alias` before the search-path
tests: the first token of the line, provided the line is nonempty, does not
open with a quote, and tokenizes without error. -/
def aliasFirstToken (command : String) : Option String :=
  let stripped := pyLStrip command
  if stripped = "" then none
  else if pyStartsWith stripped "\x27" ∨ pyStartsWith stripped "\"" then none
  else
    match shlexSplit stripped with
    | none => none
    | some [] => none
    | some (first :: _) => some first

/-! ### User switching (`switch_user`) -/

/-- Result of the `sudo -n -u TARGET -H id -un` elevation check: a raised
exception or a completed process. -/
inductive CheckOutcome where
  | exn (msg : String)
  | run (returncode : Int) (stdout : String) (stderr : String)
deriving Repr, DecidableEq

/-- The host facts `switch_user` consults: effective uid, `shutil.which`
for sudo, the elevation check per target user, `os.path.expanduser` for
`~user`, directory existence, execute permission, and chdir success. -/
structure UserWorld where
  euid : Nat
  sudoPath : Option String
  check : String → CheckOutcome
  expanduser : String → String
  isdir : String → Bool
  accessX : String → Bool
  chdirOk : String → Bool

/-- The home-directory step shared by the two success paths of
`switch_user`. -/
def switchUserHome (w : UserWorld) (st : ShellExecutor) (target : String) :
    ShellExecutor :=
  let homeDir := w.expanduser ("~" ++ target)
  if homeDir ≠ "" ∧ w.isdir homeDir then
    if w.accessX homeDir then
      if w.chdirOk homeDir then
        addOutput { st with cwd := homeDir }
          s!"[System] Changed directory to: {homeDir}"
      else
        addOutput st s!"[Error] Could not chdir to \x27{homeDir}\x27"
    else
      addOutput st
        s!"[Warning] No permission to access \x27{homeDir}\x27. Staying in: {st.cwd}"
  else st

/-- Method `switch_user` (source lines 681-739). -/
def switchUser (w : UserWorld) (st : ShellExecutor) (userName : String) :
    Bool × ShellExecutor :=
  let target := pyStrip userName
  if target = "" then
    (false, addOutput st "[Error] user: missing username")
  else if target = st.real_user then
    (true, addOutput { st with active_user := st.real_user }
      s!"[System] User reset to {st.real_user}")
  else if target = st.active_user then
    (true, addOutput st s!"[System] User already set to {st.active_user}")
  else if w.euid = 0 ∧ target = "root" then
    let st1 := addOutput { st with active_user := "root" }
      "[System] Switched to root user"
    (true, switchUserHome w st1 "root")
  else
    match w.sudoPath with
    | none => (false, addOutput st "[Error] sudo not available to switch users.")
    | some _ =>
        match w.check target with
        | .exn e => (false, addOutput st s!"[Error] user: {e}")
        | .run rc outS errS =>
            if rc ≠ 0 then
              let err :=
                if pyStrip errS ≠ "" then pyStrip errS else pyStrip outS
              (false, addOutput st
                ("[Error] user: sudo permission denied or user not found" ++
                  (if err ≠ "" then s!": {err}" else "")))
            else
              let st1 := addOutput { st with active_user := target }
                s!"[System] User switched to {target}"
              (true, switchUserHome w st1 target)

/-- The ways the non-interactive elevation check of `switch_user` can fail
for a target distinct from the real and active users: sudo absent from the
search path, the check subprocess raising, or a nonzero check exit
status. -/
def elevationCheckFails (w : UserWorld) (target : String) : Prop :=
  w.sudoPath = none ∨
    (match w.check target with
     | .exn _ => True
     | .run rc _ _ => rc ≠ 0)

/-! ### `strip_ansi_codes`

The method applies three regex substitution passes, removes `\r` and the
bell character, and filters remaining control characters.  Each regex pass
is rendered as a left-to-right scanner equivalent to `re.sub(..., '', text)`
for its pattern; matches can only begin at an escape character, so a failed
match emits the scanned characters verbatim and resumes at the next
possible start, exactly as the regex engine does. -/

/-- First character class of pass 1, the two-character escapes. -/
def ansiFinalByte (c : Char) : Bool :=
  ('@' ≤ c && c ≤ 'Z') || ('\\' ≤ c && c ≤ '_')

/-- CSI parameter bytes `0x30`-`0x3f`. -/
def csiParamByte (c : Char) : Bool := '0' ≤ c && c ≤ '?'

/-- CSI intermediate bytes `0x20`-`0x2f`. -/
def csiInterByte (c : Char) : Bool := ' ' ≤ c && c ≤ '/'

/-- CSI final bytes `0x40`-`0x7e`. -/
def csiFinalByte (c : Char) : Bool := '@' ≤ c && c ≤ '~'

mutual

/-- Pass 1 scanner, base state. -/
def pass1Go : List Char → List Char
  | [] => []
  | c :: cs => if c = '\x1b' then pass1Esc cs else c :: pass1Go cs

/-- Pass 1 scanner after an escape character. -/
def pass1Esc : List Char → List Char
  | [] => ['\x1b']
  | c :: cs =>
      if ansiFinalByte c then pass1Go cs
      else if c = '[' then pass1CsiA ['\x1b', '['] cs
      else if c = '\x1b' then '\x1b' :: pass1Esc cs
      else '\x1b' :: c :: pass1Go cs

/-- Pass 1 scanner inside the parameter-byte segment of a CSI candidate. -/
def pass1CsiA (held : List Char) : List Char → List Char
  | [] => held
  | c :: cs =>
      if csiParamByte c then pass1CsiA (held ++ [c]) cs
      else if csiInterByte c then pass1CsiB (held ++ [c]) cs
      else if csiFinalByte c then pass1Go cs
      else if c = '\x1b' then held ++ pass1Esc cs
      else held ++ (c :: pass1Go cs)

/-- Pass 1 scanner inside the intermediate-byte segment of a CSI
candidate. -/
def pass1CsiB (held : List Char) : List Char → List Char
  | [] => held
  | c :: cs =>
      if csiInterByte c then pass1CsiB (held ++ [c]) cs
      else if csiFinalByte c then pass1Go cs
      else if c = '\x1b' then held ++ pass1Esc cs
      else held ++ (c :: pass1Go cs)

end

mutual

/-- Pass 2 scanner (OSC sequences terminated by a bell), base state. -/
def pass2Go : List Char → List Char
  | [] => []
  | c :: cs => if c = '\x1b' then pass2Esc cs else c :: pass2Go cs

/-- Pass 2 scanner after an escape character. -/
def pass2Esc : List Char → List Char
  | [] => ['\x1b']
  | c :: cs =>
      if c = ']' then pass2Osc ['\x1b', ']'] cs
      else if c = '\x1b' then '\x1b' :: pass2Esc cs
      else '\x1b' :: c :: pass2Go cs

/-- Pass 2 scanner inside an OSC candidate body (no bell seen yet). -/
def pass2Osc (held : List Char) : List Char → List Char
  | [] => held
  | c :: cs =>
      if c = '\x07' then pass2Go cs
      else pass2Osc (held ++ [c]) cs

end

mutual

/-- Pass 3 scanner (DCS/OSC/SOS/PM/APC-style sequences), base state. -/
def pass3Go : List Char → List Char
  | [] => []
  | c :: cs => if c = '\x1b' then pass3Esc cs else c :: pass3Go cs

/-- Pass 3 scanner after an escape character. -/
def pass3Esc : List Char → List Char
  | [] => ['\x1b']
  | c :: cs =>
      if c = 'P' ∨ c = ']' ∨ c = 'X' ∨ c = '^' ∨ c = '_' then pass3Body cs
      else if c = '\x1b' then '\x1b' :: pass3Esc cs
      else '\x1b' :: c :: pass3Go cs

/-- Pass 3 scanner inside a sequence body; body characters are part of the
match and are dropped however the match ends. -/
def pass3Body : List Char → List Char
  | [] => []
  | c :: cs =>
      if c = '\\' then '\\' :: pass3Go cs
      else if c = '\x1b' then pass3BodyEsc cs
      else pass3Body cs

/-- Pass 3 scanner inside a body, after an escape character that may begin
the `ESC \`-style terminator.  When it does not, the match ends *before*
this escape character, and the regex engine retries at it: an opener next
starts a new match consuming the pending escape, another escape character
makes the pending one an unmatched literal, and anything else leaves both
characters as literals. -/
def pass3BodyEsc : List Char → List Char
  | [] => ['\x1b']
  | c :: cs =>
      if c = '\\' then pass3Go cs
      else if c = 'P' ∨ c = ']' ∨ c = 'X' ∨ c = '^' ∨ c = '_' then pass3Body cs
      else if c = '\x1b' then '\x1b' :: pass3Esc cs
      else '\x1b' :: c :: pass3Go cs

end

/-- Method `strip_ansi_codes` (source lines 759-778): the three regex
passes, then removal of `\r` and the bell, then the control-character
filter keeping tab and newline. -/
def stripAnsiCodes (s : String) : String :=
  let t1 := pass1Go s.toList
  let t2 := pass2Go t1
  let t3 := pass3Go t2
  let t4 := t3.filter (fun c => c ≠ '\r')
  let t5 := t4.filter (fun c => c ≠ '\x07')
  String.mk (t5.filter (fun c => ' ' ≤ c || c = '\t' || c = '\n'))

/-! ### PTY line buffer / escape filter (`read_pty_output`)

The per-character loop of `read_pty_output` is embedded as a step function
on an explicit state.  The cursor is an `Int` because the Python variable
can leave `[0, len]` when an escape sequence carries a negative parameter;
a `none` result models the uncaught `IndexError` a far-negative cursor
raises on item assignment (which kills the reader thread). -/

/-- In-progress line state of the PTY reader. -/
structure PtyState where
  current_line : List Char
  cursor_pos : Int
  escape_buffer : List Char
  in_escape : Bool
  output_lines : List String
deriving Repr, DecidableEq

/-- Python list item assignment `l[i] = c` for `i < len(l)`: non-negative
indices assign in place, negative indices count from the end, and an index
below `-len(l)` raises `IndexError` (`none`). -/
def pyListSet (l : List Char) (i : Int) (c : Char) : Option (List Char) :=
  if 0 ≤ i then some (l.set i.toNat c)
  else if 0 ≤ (l.length : Int) + i then some (l.set ((l.length : Int) + i).toNat c)
  else none

/-- Python slice `l[:i]` with a possibly negative bound. -/
def pySliceTo (l : List Char) (i : Int) : List Char :=
  if 0 ≤ i then l.take i.toNat else l.take ((l.length : Int) + i).toNat

/-- The parameter count of a parsed CSI-style sequence `ESC [ params X`:
`int(params) if params else 1`, falling back to 1 when `int` raises. -/
def escapeParamAmount (seq : List Char) : Int :=
  if String.mk (seq.drop 2).dropLast = "" then 1
  else (pyInt? (String.mk (seq.drop 2).dropLast)).getD 1

/-- The local `apply_escape_sequence` of `read_pty_output` (source lines
915-937): cursor-left/right with clamping, erase-to-end-of-line, all other
sequences ignored. -/
def applyEscapeSequence (seq : List Char) (line : List Char) (cursor : Int) :
    List Char × Int :=
  if seq = "\x1b[D".toList ∨ seq = "\x1bOD".toList then
    (line, max 0 (cursor - 1))
  else if seq = "\x1b[C".toList ∨ seq = "\x1bOC".toList then
    (line, min (line.length : Int) (cursor + 1))
  else if ("\x1b[".toList.isPrefixOf seq) ∧
      (seq.getLast? = some 'D' ∨ seq.getLast? = some 'C' ∨ seq.getLast? = some 'K') then
    if seq.getLast? = some 'D' then (line, max 0 (cursor - escapeParamAmount seq))
    else if seq.getLast? = some 'C' then
      (line, min (line.length : Int) (cursor + escapeParamAmount seq))
    else (pySliceTo line cursor, cursor)
  else (line, cursor)

/-- The escape-terminator test of the reader loop:
`char.isalpha() or char in ("~", "m")`.  `Char.isAlpha` restricts Python's
Unicode `str.isalpha` to ASCII letters; a sequence the program terminates
at a non-ASCII letter ends in that letter, which is never `D`, `C` or `K`,
so `apply_escape_sequence` treats it as a no-op — the restriction can skip
program no-ops but never a cursor movement. -/
def isEscTerminator (c : Char) : Bool :=
  c.isAlpha || c = '~' || c = 'm'

/-- Commit of the in-progress line on `\n` (the local `commit_line`): strip
residual codes and append to the bounded output log when non-blank. -/
def commitLine (out : List String) (line : List Char) : List String :=
  let clean := stripAnsiCodes (String.mk line)
  if pyStrip clean ≠ "" then addOutputLine out clean else out

/-- One character of the `read_pty_output` loop (source lines 947-974). -/
def ptyStep (st : PtyState) (c : Char) : Option PtyState :=
  if st.in_escape then
    let buf := st.escape_buffer ++ [c]
    if isEscTerminator c then
      let (line, cursor) := applyEscapeSequence buf st.current_line st.cursor_pos
      some { st with
        current_line := line, cursor_pos := cursor,
        escape_buffer := [], in_escape := false }
    else some { st with escape_buffer := buf }
  else if c = '\x1b' then
    some { st with in_escape := true, escape_buffer := [c] }
  else if c = '\n' then
    some { st with
      output_lines := commitLine st.output_lines st.current_line,
      current_line := [], cursor_pos := 0 }
  else if c = '\r' then some { st with cursor_pos := 0 }
  else if c = '\x08' ∨ c = '\x7f' then
    some { st with cursor_pos := max 0 (st.cursor_pos - 1) }
  else
    if st.cursor_pos < (st.current_line.length : Int) then
      match pyListSet st.current_line st.cursor_pos c with
      | some line => some { st with current_line := line, cursor_pos := st.cursor_pos + 1 }
      | none => none
    else
      some { st with
        current_line := st.current_line ++ [c],
        cursor_pos := st.cursor_pos + 1 }

/-- Run the reader loop over a decoded character sequence. -/
def ptyProcess (st : PtyState) (cs : List Char) : Option PtyState :=
  cs.foldlM ptyStep st

/-- Reader state at PTY start (empty partial line, cursor at its length). -/
def initPtyState : PtyState :=
  { current_line := []
    cursor_pos := 0
    escape_buffer := []
    in_escape := false
    output_lines := [] }

/-- A PTY reader state mid-stream with an in-progress buffer: the buffer
text with the cursor at its end, matching how `read_pty_output` initialises
`current_line`/`cursor_pos` from the pending partial line. -/
def ptyStateOf (partial_line : String) (out : List String) : PtyState :=
  { current_line := partial_line.toList
    cursor_pos := (partial_line.toList.length : Int)
    escape_buffer := []
    in_escape := false
    output_lines := out }

/-- The cursor-movement amount a terminated escape sequence will apply,
mirroring the arithmetic of `apply_escape_sequence` (1 for the fixed
two-character forms and for unrecognised or unparsable parameters). -/
def escapeAmount (seq : List Char) : Int :=
  if seq = "\x1b[D".toList ∨ seq = "\x1bOD".toList then 1
  else if seq = "\x1b[C".toList ∨ seq = "\x1bOC".toList then 1
  else if ("\x1b[".toList.isPrefixOf seq) ∧
      (seq.getLast? = some 'D' ∨ seq.getLast? = some 'C' ∨ seq.getLast? = some 'K') then
    escapeParamAmount seq
  else 1

/-- Cursor bounds invariant of the PTY reader state. -/
def ptyInv (st : PtyState) : Prop :=
  0 ≤ st.cursor_pos ∧ st.cursor_pos ≤ (st.current_line.length : Int)

/-- The guard under which a reader step cannot drive the cursor out of
bounds: if this character terminates an escape sequence, the sequence's
parameter field (the characters between `ESC[` and the final byte) must be
empty or consist solely of ASCII decimal digits.  On such parameters the
embedded `int()` model provably agrees with Python's (whose full domain
also spans Unicode digits, underscores and signed forms) and the resulting
amount is non-negative; a parameter carrying a minus sign — with ASCII or
Unicode digits — escapes the clamps and is excluded. -/
def escapeStepOk (st : PtyState) (c : Char) : Prop :=
  st.in_escape = true → isEscTerminator c = true →
    (((st.escape_buffer ++ [c]).drop 2).dropLast).all isAsciiDigit = true

/-- The `ShellExecutor.__init__` state (history fields as set on lines
374-402; external-environment fields chosen representatively). -/
def initExecutor : ShellExecutor :=
  { cwd := "/home/ark"
    env := []
    output_lines := []
    command_history := []
    history_next_index := 1
    history_index := -1
    active_user := "ark"
    real_user := "ark"
    hostname := "r36s"
    active_env := none
    in_editor_mode := false
    in_pty_mode := false }

/-! ### Fixtures used by witness theorems -/

/-- A populated history state used to witness the history theorems. -/
def witnessHistSt : ShellExecutor :=
  { initExecutor with
      command_history := [⟨1, "ls -la"⟩, ⟨2, "pwd"⟩]
      history_next_index := 3 }

/-- An executor state with one tracked environment variable, used to
exhibit the environment-probe counterexample. -/
def probeSt : ShellExecutor := { initExecutor with env := [("HOME", "/root")] }

/-- A search-path oracle on which only `python3` resolves. -/
def witnessWhich (s : String) : Bool := s == "python3"

/-- A host-world fixture in which the sudo elevation check is denied. -/
def witnessWorld : UserWorld :=
  { euid := 1000
    sudoPath := some "/usr/bin/sudo"
    check := fun _ => .run 1 "" "sudo: a password is required"
    expanduser := fun s => "/home/" ++ s.drop 1
    isdir := fun _ => true
    accessX := fun _ => true
    chdirOk := fun _ => true }

/-! ### Helper lemmas -/

/-- Appending to the bounded output log always makes the appended line the
last one, capacity eviction notwithstanding. -/
theorem addOutputLine_getLast? (ls : List String) (line : String) :
    (addOutputLine ls line).getLast? = some line := by
  unfold addOutputLine
  dsimp only
  split
  · next h =>
      rw [List.drop_append_of_le_length (by simp at h ⊢; try omega)]
      exact List.getLast?_concat _
  · exact List.getLast?_concat _

/-- Trimming retains a suffix of the entries. -/
theorem trimEntries_subset (m : Nat) (l : List HEntry) :
    trimEntries m l ⊆ l := by
  unfold trimEntries
  split
  · exact List.drop_subset _ _
  · exact fun _ h => h

/-- Trimming a concatenation never drops the just-appended final entry. -/
theorem mem_trimEntries_concat (m : Nat) (l : List HEntry) (e : HEntry) :
    e ∈ trimEntries m (l ++ [e]) := by
  unfold trimEntries
  split
  · next h =>
      rw [List.drop_append_of_le_length (by simp at h ⊢; try omega)]
      simp
  · simp

/-- The history invariant, in propositional form. -/
theorem histInvariant_iff (st : ShellExecutor) :
    histInvariant st = true ↔
      ∀ e ∈ st.command_history, e.index < st.history_next_index := by
  simp [histInvariant]

/-- One history operation preserves the index invariant. -/
theorem histInvariant_applyHistOp (st : ShellExecutor) (op : HistOp)
    (h : histInvariant st = true) :
    histInvariant (applyHistOp st op) = true := by
  rw [histInvariant_iff] at h ⊢
  cases op with
  | add m c =>
      intro e he
      simp only [applyHistOp, addHistoryEntry] at he ⊢
      have := trimEntries_subset m (st.command_history ++ [⟨st.history_next_index, c⟩]) he
      rcases List.mem_append.mp this with h1 | h1
      · have := h e h1; omega
      · simp at h1; subst h1; simp
  | trim m =>
      intro e he
      simp only [applyHistOp] at he ⊢
      exact h e (trimEntries_subset m _ he)

/-- String coercion via `ToString` is the identity. -/
theorem toString_self (s : String) : toString s = s := rfl

/-! ### Claim theorems -/

/-- C5: from an in-progress PTY line buffer `"hello"` with the cursor at
position 5, feeding `ESC[2D` moves the cursor to position 3; then `ESC[K`
truncates the buffer to `"hel"`; then the characters `h`, `i`, `\n`
overwrite/append from position 3, producing `"helhi"`, which is exactly the
line committed to the output log. -/
theorem c5_escape_filter_worked_example :
    ptyProcess (ptyStateOf "hello" []) "\x1b[2D".toList =
      some { current_line := "hello".toList, cursor_pos := 3, escape_buffer := [],
             in_escape := false, output_lines := [] } ∧
    ptyProcess { current_line := "hello".toList, cursor_pos := 3, escape_buffer := [],
                 in_escape := false, output_lines := [] } "\x1b[K".toList =
      some { current_line := "hel".toList, cursor_pos := 3, escape_buffer := [],
             in_escape := false, output_lines := [] } ∧
    ptyProcess { current_line := "hel".toList, cursor_pos := 3, escape_buffer := [],
                 in_escape := false, output_lines := [] } "hi\n".toList =
      some { current_line := [], cursor_pos := 0, escape_buffer := [],
             in_escape := false, output_lines := ["helhi"] } := by
  refine ⟨by decide, by decide, by decide⟩

/-- C6: feeding `"\x1b[31mERROR\x1b[0m\n"` through the PTY escape filter
commits exactly the line `"ERROR"`: both color/attribute sequences are
discarded with no effect on the committed text. -/
theorem c6_color_codes_stripped :
    ptyProcess initPtyState "\x1b[31mERROR\x1b[0m\n".toList =
      some { current_line := [], cursor_pos := 0, escape_buffer := [],
             in_escape := false, output_lines := ["ERROR"] } := by
  decide

/-- Numeric bounds of an ASCII digit character. -/
theorem isAsciiDigit_toNat (c : Char) (h : isAsciiDigit c = true) :
    48 ≤ c.toNat ∧ c.toNat ≤ 57 := by
  simp only [isAsciiDigit, Bool.and_eq_true, decide_eq_true_eq] at h
  obtain ⟨h1, h2⟩ := h
  rw [Char.le_def] at h1 h2
  simp only [UInt32.le_def, BitVec.le_def] at h1 h2
  simp only [Char.toNat]
  exact ⟨h1, h2⟩

/-- An ASCII digit is not whitespace. -/
theorem isPySpace_of_digit (c : Char) (h : isAsciiDigit c = true) :
    isPySpace c = false := by
  obtain ⟨h1, h2⟩ := isAsciiDigit_toNat c h
  simp only [isPySpace]
  simp only [Bool.or_eq_false_iff, Bool.and_eq_false_iff, decide_eq_false_iff_not]
  omega

/-- Digit value of an ASCII digit. -/
theorem pyDigitVal?_of_ascii (c : Char) (h : isAsciiDigit c = true) :
    pyDigitVal? c = some (c.toNat - 48) := by
  obtain ⟨h1, h2⟩ := isAsciiDigit_toNat c h
  simp only [pyDigitVal?]
  rw [if_pos ⟨h1, h2⟩]

/-- Stripping is the identity on an all-digit string. -/
theorem pyStrip_mk_of_digits (l : List Char) (h : l.all isAsciiDigit = true) :
    pyStrip (String.mk l) = String.mk l := by
  have hs : ∀ c ∈ l, isPySpace c = false := fun c hc =>
    isPySpace_of_digit c (List.all_eq_true.mp h c hc)
  unfold pyStrip
  have d1 : l.dropWhile isPySpace = l := by
    cases l with
    | nil => rfl
    | cons c rest =>
        rw [List.dropWhile_cons, if_neg]
        simp [hs c (by simp)]
  rw [show (String.mk l).toList = l from rfl, d1]
  have d2 : l.reverse.dropWhile isPySpace = l.reverse := by
    cases hr : l.reverse with
    | nil => rfl
    | cons c rest =>
        rw [List.dropWhile_cons, if_neg]
        have hm : c ∈ l := by
          rw [← List.mem_reverse, hr]; simp
        simp [hs c hm]
  rw [d2, List.reverse_reverse]

/-- The integer-literal body scanner succeeds with a non-negative value on
an all-ASCII-digit input. -/
theorem pyIntBody_digits (l : List Char) (h : l.all isAsciiDigit = true) :
    ∀ acc : Int, 0 ≤ acc → ∃ v, pyIntBody acc l = some v ∧ 0 ≤ v := by
  induction l with
  | nil => exact fun acc hacc => ⟨acc, rfl, hacc⟩
  | cons c rest ih =>
      intro acc hacc
      simp only [List.all_cons, Bool.and_eq_true] at h
      obtain ⟨hc, hrest⟩ := h
      have hne : ¬ c = '_' := by
        rintro rfl
        simp [isAsciiDigit] at hc
      obtain ⟨v, hv, hvnn⟩ := ih hrest (10 * acc + ((c.toNat - 48 : Nat) : Int))
        (by omega)
      refine ⟨v, ?_, hvnn⟩
      rw [pyIntBody.eq_def]
      dsimp only
      rw [if_neg hne, pyDigitVal?_of_ascii c hc]
      exact hv

/-- On a non-empty all-ASCII-digit string, the embedded `int()` model
yields a non-negative value — the case on which it provably coincides with
Python's `int()` (whose full domain also spans Unicode digits, signs and
underscore separators). -/
theorem pyInt?_digits (l : List Char) (hne : l ≠ []) (h : l.all isAsciiDigit = true) :
    ∃ v, pyInt? (String.mk l) = some v ∧ 0 ≤ v := by
  unfold pyInt?
  rw [pyStrip_mk_of_digits l h, show (String.mk l).toList = l from rfl]
  cases l with
  | nil => exact absurd rfl hne
  | cons c rest =>
      simp only [List.all_cons, Bool.and_eq_true] at h
      obtain ⟨hc, hrest⟩ := h
      have hplus : ¬ c = '+' := by rintro rfl; simp [isAsciiDigit] at hc
      have hminus : ¬ c = '-' := by rintro rfl; simp [isAsciiDigit] at hc
      have hhead : headIsDigit (c :: rest) = true := by
        simp [headIsDigit, pyDigitVal?_of_ascii c hc]
      obtain ⟨v, hv, hvnn⟩ := pyIntBody_digits (c :: rest)
        (by simp [hc, hrest]) 0 le_rfl
      refine ⟨v, ?_, hvnn⟩
      dsimp only
      rw [if_neg hplus, if_neg hminus, if_pos hhead]
      exact hv

/-- A terminated escape sequence whose parameter field is empty or
all-ASCII-digits applies a non-negative cursor amount. -/
theorem escapeAmount_nonneg_of_digit_params (seq : List Char)
    (h : ((seq.drop 2).dropLast).all isAsciiDigit = true) :
    0 ≤ escapeAmount seq := by
  unfold escapeAmount
  split_ifs with h1 h2 h3
  · decide
  · decide
  · unfold escapeParamAmount
    by_cases hemp : String.mk ((seq.drop 2).dropLast) = ""
    · rw [if_pos hemp]; decide
    · rw [if_neg hemp]
      have hlne : (seq.drop 2).dropLast ≠ [] := by
        intro hl
        exact hemp (by rw [hl])
      obtain ⟨v, hv, hvnn⟩ := pyInt?_digits _ hlne h
      rw [hv]
      simpa using hvnn
  · decide

/-- Cursor bounds are preserved by an applied escape sequence whose
parameter does not parse to a negative amount. -/
theorem applyEscapeSequence_bounds (seq line : List Char) (cursor : Int)
    (h0 : 0 ≤ cursor) (h1 : cursor ≤ (line.length : Int))
    (ha : 0 ≤ escapeAmount seq) :
    0 ≤ (applyEscapeSequence seq line cursor).2 ∧
      (applyEscapeSequence seq line cursor).2 ≤
        ((applyEscapeSequence seq line cursor).1.length : Int) := by
  unfold escapeAmount at ha
  unfold applyEscapeSequence
  by_cases hd2 : seq = "\x1b[D".toList ∨ seq = "\x1bOD".toList
  · rw [if_pos hd2]; exact ⟨by simp; try omega, by simp; try omega⟩
  · rw [if_neg hd2] at ha ⊢
    by_cases hc2 : seq = "\x1b[C".toList ∨ seq = "\x1bOC".toList
    · rw [if_pos hc2]; exact ⟨by simp; try omega, by simp; try omega⟩
    · rw [if_neg hc2] at ha ⊢
      by_cases hcsi : ("\x1b[".toList.isPrefixOf seq) ∧
          (seq.getLast? = some 'D' ∨ seq.getLast? = some 'C' ∨ seq.getLast? = some 'K')
      · rw [if_pos hcsi] at ha ⊢
        by_cases hD : seq.getLast? = some 'D'
        · rw [if_pos hD]; exact ⟨by simp; try omega, by simp; try omega⟩
        · rw [if_neg hD]
          by_cases hC : seq.getLast? = some 'C'
          · rw [if_pos hC]; exact ⟨by simp; try omega, by simp; try omega⟩
          · rw [if_neg hC]
            refine ⟨h0, ?_⟩
            simp only [pySliceTo, if_pos h0, List.length_take]
            omega
      · rw [if_neg hcsi]
        exact ⟨h0, h1⟩

/-- C9 (counterexample): the claimed cursor-bounds invariant fails as
stated.  From a freshly started PTY reader, the byte sequence
`"ab\x1b[-9C"` — a cursor-right escape with a negative parameter — leaves
the cursor at `-7`, below the claimed lower bound `0` (Python's
`int("-9")` parses the sign, so `min(len, cursor + (-9))` escapes the
clamp). -/
theorem c9_cursor_invariant_counterexample :
    (ptyProcess initPtyState "ab\x1b[-9C".toList).map PtyState.cursor_pos =
      some (-7) ∧ ((-7 : Int) < 0) := by
  exact ⟨by decide, by decide⟩

/-- C9 (amended): after every processed input character — including every
applied escape sequence whose parameter field (the characters between
`ESC[` and the final byte) is empty or consists solely of ASCII decimal
digits, the case on which the embedded `int()` model provably agrees with
Python's — the reader step succeeds and the cursor offset stays within
`[0, length(line buffer)]`; cursor-left, backspace and carriage return
clamp at 0, cursor-right clamps at the buffer length, and a commit resets
to an empty buffer with cursor 0.  (A parameter carrying a minus sign —
with ASCII or Unicode digits, which Python's `int()` both accepts — drives
the cursor out of bounds, e.g. `ESC[-9C`, and is excluded by the guard.) -/
theorem c9_cursor_invariant (st : PtyState) (c : Char)
    (hinv : ptyInv st) (hok : escapeStepOk st c) :
    ∃ st', ptyStep st c = some st' ∧ ptyInv st' := by
  obtain ⟨h0, h1⟩ := hinv
  unfold ptyStep
  by_cases hesc : st.in_escape = true
  · rw [if_pos hesc]
    by_cases hterm : isEscTerminator c = true
    · rw [if_pos hterm]
      have hb := applyEscapeSequence_bounds (st.escape_buffer ++ [c]) st.current_line
        st.cursor_pos h0 h1
        (escapeAmount_nonneg_of_digit_params _ (hok hesc hterm))
      exact ⟨_, rfl, hb.1, hb.2⟩
    · rw [if_neg hterm]
      exact ⟨_, rfl, h0, h1⟩
  · rw [if_neg hesc]
    by_cases he : c = '\x1b'
    · rw [if_pos he]; exact ⟨_, rfl, h0, h1⟩
    · rw [if_neg he]
      by_cases hn : c = '\n'
      · rw [if_pos hn]; exact ⟨_, rfl, by simp [ptyInv]⟩
      · rw [if_neg hn]
        by_cases hr : c = '\r'
        · rw [if_pos hr]; refine ⟨_, rfl, by simp [ptyInv]; try omega⟩
        · rw [if_neg hr]
          by_cases hbdel : c = '\x08' ∨ c = '\x7f'
          · rw [if_pos hbdel]
            exact ⟨_, rfl, by simp; try omega, by simp; try omega⟩
          · rw [if_neg hbdel]
            by_cases hlt : st.cursor_pos < (st.current_line.length : Int)
            · rw [if_pos hlt]
              have hset : pyListSet st.current_line st.cursor_pos c =
                  some (st.current_line.set st.cursor_pos.toNat c) := by
                unfold pyListSet
                rw [if_pos h0]
              rw [hset]
              exact ⟨_, rfl, by simp; try omega, by simp [List.length_set]; try omega⟩
            · rw [if_neg hlt]
              exact ⟨_, rfl, by simp; try omega, by simp; try omega⟩

/-- C9 (witness): the amended invariant applied at a concrete mid-stream
state and printable character. -/
theorem c9_cursor_invariant_witness :
    ∃ st', ptyStep (ptyStateOf "ab" []) 'x' = some st' ∧ ptyInv st' :=
  c9_cursor_invariant (ptyStateOf "ab" []) 'x' (by constructor <;> decide)
    (fun h => by simp [ptyStateOf] at h)

/-- C1 (counterexample): a probe result with exit status 0 whose stdout
`"oops\nFOO=bar"` carries a malformed sentinel trailer (its first line does
not start with the `__PWD__` marker) makes `apply_shell_environment` return
success, report no error line, and wholesale-replace the tracked
environment table — contradicting the claim that a malformed trailer is a
failure with no partial state applied.  (Only stdout with no newline at all
is treated as malformed by the code.) -/
theorem c1_env_probe_counterexample :
    probeSentinelOk "oops\nFOO=bar" = false ∧
    (applyShellEnvironment (fun _ => true) probeSt
        (.run 0 "oops\nFOO=bar" "") "source").1 = true ∧
    (applyShellEnvironment (fun _ => true) probeSt
        (.run 0 "oops\nFOO=bar" "") "source").2.env = [("FOO", "bar")] ∧
    ¬ probeSt.env = [("FOO", "bar")] ∧
    (applyShellEnvironment (fun _ => true) probeSt
        (.run 0 "oops\nFOO=bar" "") "source").2.output_lines
      = probeSt.output_lines := by
  refine ⟨by decide, by decide, by decide, by decide, by decide⟩

/-- C1 (amended): whenever the probe shell raises at spawn, exits with a
nonzero status, or produces stdout containing no newline (the only trailer
shape the code rejects as malformed), `apply_shell_environment` returns
failure, appends exactly one `[Error]` output line, and leaves the tracked
working directory, environment table and history unchanged — no partial
state is applied.  A trailer whose first line merely lacks the `__PWD__`
marker is *not* rejected: the call succeeds and still replaces the
environment (see the counterexample). -/
theorem c1_env_probe_failure_atomic (chdirOk : String → Bool)
    (st : ShellExecutor) (probe : ProbeOutcome) (description : String)
    (hfail : probeFails probe = true) :
    (applyShellEnvironment chdirOk st probe description).1 = false ∧
    (applyShellEnvironment chdirOk st probe description).2.cwd = st.cwd ∧
    (applyShellEnvironment chdirOk st probe description).2.env = st.env ∧
    (applyShellEnvironment chdirOk st probe description).2.command_history
      = st.command_history ∧
    ∃ m, (applyShellEnvironment chdirOk st probe description).2.output_lines
      = addOutputLine st.output_lines ("[Error] " ++ m) := by
  cases probe with
  | exn e =>
      refine ⟨rfl, rfl, rfl, rfl, ?_⟩
      simp only [applyShellEnvironment, addOutput, toString_self, String.append_empty,
        String.append_assoc]
      exact ⟨_, rfl⟩
  | run rc out errBytes =>
      simp only [probeFails, Bool.or_eq_true, decide_eq_true_eq,
        Option.isNone_iff_eq_none] at hfail
      by_cases hrc : rc ≠ 0
      · simp only [applyShellEnvironment, if_pos hrc, addOutput]
        refine ⟨trivial, trivial, trivial, trivial, ?_⟩
        simp only [toString_self, String.append_empty, String.append_assoc]
        exact ⟨_, rfl⟩
      · have hnl : findNewline out = none := by
          rcases hfail with h | h
          · exact absurd h hrc
          · exact h
        simp only [applyShellEnvironment, if_neg hrc, hnl, addOutput]
        refine ⟨trivial, trivial, trivial, trivial, ?_⟩
        simp only [toString_self, String.append_empty, String.append_assoc]
        exact ⟨_, rfl⟩

/-- C1 (witness): the amended failure-atomicity theorem applied to a
concrete nonzero-exit probe result. -/
theorem c1_env_probe_failure_atomic_witness :
    (applyShellEnvironment (fun _ => true) probeSt (.run 1 "" "boom") "source").1
        = false ∧
    (applyShellEnvironment (fun _ => true) probeSt (.run 1 "" "boom") "source").2.cwd
        = probeSt.cwd ∧
    (applyShellEnvironment (fun _ => true) probeSt (.run 1 "" "boom") "source").2.env
        = probeSt.env ∧
    (applyShellEnvironment (fun _ => true) probeSt
        (.run 1 "" "boom") "source").2.command_history = probeSt.command_history ∧
    ∃ m, (applyShellEnvironment (fun _ => true) probeSt
        (.run 1 "" "boom") "source").2.output_lines
      = addOutputLine probeSt.output_lines ("[Error] " ++ m) :=
  c1_env_probe_failure_atomic (fun _ => true) probeSt (.run 1 "" "boom") "source"
    (by decide)

/-- Runs of `add_history_entry` depend only on the history fields: two
states agreeing on entries and counter produce agreeing entries and
counter. -/
theorem runAppends_history_congr (m : Nat) (cmds : List String) :
    ∀ st1 st2 : ShellExecutor,
      st1.command_history = st2.command_history →
      st1.history_next_index = st2.history_next_index →
      (runAppends m st1 cmds).command_history
          = (runAppends m st2 cmds).command_history ∧
        (runAppends m st1 cmds).history_next_index
          = (runAppends m st2 cmds).history_next_index := by
  induction cmds with
  | nil => intro st1 st2 h1 h2; exact ⟨h1, h2⟩
  | cons c rest ih =>
      intro st1 st2 h1 h2
      simp only [runAppends, List.foldl_cons] at ih ⊢
      exact ih _ _ (by simp [addHistoryEntry, h1, h2]) (by simp [addHistoryEntry, h2])

/-- C3: starting from the initial executor state, after any sequence of
history appends and trims to the maximum retained size, `next_index`
strictly exceeds every index present in the stored history, and a trim
never changes the counter. -/
theorem c3_history_index_monotonicity :
    (∀ ops : List HistOp, histInvariant (runHistOps initExecutor ops) = true) ∧
    (∀ (m : Nat) (st : ShellExecutor),
      (applyHistOp st (.trim m)).history_next_index = st.history_next_index) := by
  constructor
  · intro ops
    have key : ∀ st, histInvariant st = true →
        histInvariant (runHistOps st ops) = true := by
      induction ops with
      | nil => intro st h; exact h
      | cons op rest ih =>
          intro st h
          simp only [runHistOps, List.foldl_cons] at ih ⊢
          exact ih _ (histInvariant_applyHistOp st op h)
    exact key initExecutor (by decide)
  · intro m st; rfl

/-- C10: `history -c` (`clear_history`) resets the counter `next_index` to
1 in addition to emptying the entries; consequently a run of appends after
a clear produces exactly the same history (same indices, starting again at
1) as the same run from the freshly initialised executor, so index values
assigned before the clear are reused. -/
theorem c10_clear_history_resets_counter (st : ShellExecutor) :
    (clearHistory st).history_next_index = 1 ∧
    (clearHistory st).command_history = [] ∧
    ∀ (m : Nat) (cmds : List String),
      (runAppends m (clearHistory st) cmds).command_history
        = (runAppends m initExecutor cmds).command_history := by
  refine ⟨rfl, rfl, fun m cmds => ?_⟩
  exact (runAppends_history_congr m cmds (clearHistory st) initExecutor rfl rfl).1

/-- C2: outside editor/PTY mode, on a state satisfying the history
invariant, submitting `!N` for a stored index N dispatches exactly the
stored command text and appends a new history entry carrying the counter
value — an index not assigned to any stored entry; for a missing index N,
an error line `[Error] history: no entry at index N` is reported, nothing
is dispatched, and the history (entries and counter) is unchanged. -/
theorem c2_history_reference_execution (m : Nat) (now : String)
    (st : ShellExecutor) (command : String) (N : Int)
    (hed : st.in_editor_mode = false) (hpty : st.in_pty_mode = false)
    (hinv : histInvariant st = true)
    (href : historyRefIndex command = some N) :
    (∀ e, getHistoryEntry st N = some e →
      (executeCommand m now st command).2 = some e.command ∧
      (⟨st.history_next_index, e.command⟩ : HEntry)
          ∈ (executeCommand m now st command).1.command_history ∧
      (executeCommand m now st command).1.history_next_index
          = st.history_next_index + 1 ∧
      ∀ e' ∈ st.command_history, e'.index ≠ st.history_next_index) ∧
    (getHistoryEntry st N = none →
      (executeCommand m now st command).2 = none ∧
      (executeCommand m now st command).1.command_history = st.command_history ∧
      (executeCommand m now st command).1.history_next_index
          = st.history_next_index ∧
      (executeCommand m now st command).1.output_lines.getLast?
        = some ("[Error] history: no entry at index " ++ toString N)) := by
  unfold historyRefIndex at href
  by_cases hP : pyStartsWith (pyStrip command) "!" ∧ (pyStrip command).drop 1 ≠ "" ∧
      ((pyStrip command).drop 1).toList.all isAsciiDigit
  swap
  · rw [if_neg hP] at href; exact absurd href (by simp)
  rw [if_pos hP] at href
  obtain ⟨hPs, hPne, hPdig⟩ := hP
  have hne : ¬ (pyStrip command = "") := by
    intro h
    rw [h] at hPs
    exact absurd hPs (by decide)
  have hN : N = digitsToInt ((pyStrip command).drop 1).toList :=
    (Option.some.injEq _ _ ▸ href).symm
  unfold executeCommand
  rw [if_neg hne, if_neg (by simp [hed]), if_neg (by simp [hpty])]
  unfold resolveHistoryReference
  rw [if_pos ⟨hPs, hPne, hPdig⟩]
  constructor
  · intro e he
    rw [hN] at he
    simp only [he]
    refine ⟨by trivial, ?_, by trivial, ?_⟩
    · simp only [addHistoryEntry, addOutput]
      exact mem_trimEntries_concat m _ _
    · intro e' he'
      have := (histInvariant_iff st).mp hinv e' he'
      omega
  · intro he
    rw [hN] at he
    simp only [he]
    refine ⟨by trivial, by trivial, by trivial, ?_⟩
    simp only [addOutput, addOutputLine_getLast?, toString_self, String.append_empty,
      String.append_assoc, hN]

/-- C2 (witness): the history-reference theorem applied at a concrete
two-entry history for `!1`. -/
theorem c2_history_reference_execution_witness :
    (executeCommand 100 "12:00:00" witnessHistSt "!1").2 = some "ls -la" ∧
    (⟨3, "ls -la"⟩ : HEntry)
      ∈ (executeCommand 100 "12:00:00" witnessHistSt "!1").1.command_history := by
  have h := (c2_history_reference_execution 100 "12:00:00" witnessHistSt "!1" 1
    rfl rfl (by decide) (by decide)).1 ⟨1, "ls -la"⟩ (by decide)
  exact ⟨h.1, h.2.1⟩

/-- Trimming does nothing when the entries fit the cap (or no cap is
configured). -/
theorem trimEntries_eq_of_le (m : Nat) (l : List HEntry)
    (h : m = 0 ∨ l.length ≤ m) : trimEntries m l = l := by
  unfold trimEntries
  rw [if_neg]
  rintro ⟨h1, h2⟩
  omega

/-- The `load_history` validation loop inverts the `save_history`
encoding of the entries. -/
theorem cleanLoadedEntries_save (l : List HEntry) :
    cleanLoadedEntries (l.map (fun e =>
      JVal.jobj [("index", .jint e.index), ("command", .jstr e.command)])) = l := by
  induction l with
  | nil => rfl
  | cons e rest ih =>
      simp only [List.map_cons, cleanLoadedEntries, List.filterMap_cons] at ih ⊢
      simp only [jLookup, List.find?]
      simp only [decide_eq_true_eq, String.reduceEq, Option.map_some]
      simpa using ih

/-- C4: for a history state within the configured retention cap and with a
positive counter, saving the history document and reloading it restores
the identical ordered entry sequence and the same `next_index`, regardless
of the pre-load state. -/
theorem c4_history_roundtrip (m : Nat) (st stPre : ShellExecutor)
    (hcap : m = 0 ∨ st.command_history.length ≤ m)
    (hpos : 0 < st.history_next_index) :
    (loadHistoryDoc m stPre (saveHistoryDoc st)).map ShellExecutor.command_history
        = some st.command_history ∧
    (loadHistoryDoc m stPre (saveHistoryDoc st)).map ShellExecutor.history_next_index
        = some st.history_next_index := by
  have hent : jLookup [("next_index", JVal.jint st.history_next_index),
      ("entries", JVal.jlist (st.command_history.map (fun e =>
        JVal.jobj [("index", .jint e.index), ("command", .jstr e.command)])))]
      "entries"
      = some (JVal.jlist (st.command_history.map (fun e =>
        JVal.jobj [("index", .jint e.index), ("command", .jstr e.command)]))) := by
    simp [jLookup, List.find?]
  have hni : jLookup [("next_index", JVal.jint st.history_next_index),
      ("entries", JVal.jlist (st.command_history.map (fun e =>
        JVal.jobj [("index", .jint e.index), ("command", .jstr e.command)])))]
      "next_index"
      = some (JVal.jint st.history_next_index) := by
    simp [jLookup, List.find?]
  unfold saveHistoryDoc loadHistoryDoc
  dsimp only
  rw [hent, hni]
  simp only [Option.getD_some]
  rw [cleanLoadedEntries_save, trimEntries_eq_of_le m _ hcap, if_pos hpos]
  exact ⟨rfl, rfl⟩

/-- C4 (witness): the round-trip theorem applied to a concrete two-entry
history under a cap of 100. -/
theorem c4_history_roundtrip_witness :
    (loadHistoryDoc 100 initExecutor (saveHistoryDoc witnessHistSt)).map
        ShellExecutor.command_history = some witnessHistSt.command_history ∧
    (loadHistoryDoc 100 initExecutor (saveHistoryDoc witnessHistSt)).map
        ShellExecutor.history_next_index = some witnessHistSt.history_next_index :=
  c4_history_roundtrip 100 witnessHistSt initExecutor (Or.inr (by decide)) (by decide)

/-- C8: for a `switch_user` call whose stripped target is distinct from
both the real and the active user (and is not the short-circuited
root-as-root case), failure of the non-interactive elevation check — sudo
missing, the check raising, or a nonzero check status — makes the call
return failure, append exactly one `[Error]` output line naming the cause,
and leave the active-user identity and the working directory unchanged. -/
theorem c8_switch_user_failure (w : UserWorld) (st : ShellExecutor)
    (userName : String)
    (hreal : pyStrip userName ≠ st.real_user)
    (hact : pyStrip userName ≠ st.active_user)
    (hroot : ¬ (w.euid = 0 ∧ pyStrip userName = "root"))
    (hfail : elevationCheckFails w (pyStrip userName)) :
    (switchUser w st userName).1 = false ∧
    (switchUser w st userName).2.active_user = st.active_user ∧
    (switchUser w st userName).2.cwd = st.cwd ∧
    ∃ m, (switchUser w st userName).2.output_lines
      = addOutputLine st.output_lines ("[Error] " ++ m) := by
  unfold switchUser
  dsimp only
  by_cases hemp : pyStrip userName = ""
  · rw [if_pos hemp]
    exact ⟨rfl, rfl, rfl, "user: missing username", rfl⟩
  · rw [if_neg hemp, if_neg hreal, if_neg hact, if_neg hroot]
    rcases hsudo : w.sudoPath with _ | s
    · exact ⟨rfl, rfl, rfl, "sudo not available to switch users.", rfl⟩
    · rcases hchk : w.check (pyStrip userName) with e | ⟨rc, outS, errS⟩
      · dsimp only
        refine ⟨rfl, rfl, rfl, ?_⟩
        simp only [addOutput, toString_self, String.append_empty, String.append_assoc]
        exact ⟨_, rfl⟩
      · have hrc : rc ≠ 0 := by
          rcases hfail with h | h
          · rw [hsudo] at h; exact absurd h (by simp)
          · rw [hchk] at h; exact h
        dsimp only
        rw [if_pos hrc]
        refine ⟨rfl, rfl, rfl, ?_⟩
        simp only [addOutput, toString_self, String.append_empty, String.append_assoc]
        exact ⟨_, rfl⟩

/-- C8 (witness): the switch-user failure theorem applied to a concrete
denied elevation check for target `bob`. -/
theorem c8_switch_user_failure_witness :
    (switchUser witnessWorld initExecutor "bob").1 = false ∧
    (switchUser witnessWorld initExecutor "bob").2.active_user
        = initExecutor.active_user ∧
    (switchUser witnessWorld initExecutor "bob").2.cwd = initExecutor.cwd ∧
    ∃ m, (switchUser witnessWorld initExecutor "bob").2.output_lines
      = addOutputLine initExecutor.output_lines ("[Error] " ++ m) :=
  c8_switch_user_failure witnessWorld initExecutor "bob" (by decide) (by decide)
    (by decide) (Or.inr (show (1 : Int) ≠ 0 by decide))

/-- C7: `resolve_command_alias` rewrites the submitted line — splicing the
alias target over the first token's span and reporting an alias note — if
and only if the line's first shlex token is in the fixed alias table, the
short name does not resolve on the executable search path, and the target
does; in every other case (first token not in the table, short name found,
target absent, leading quote, empty line, or a tokenizer error) the command
is returned unchanged with no note. -/
theorem c7_alias_resolution (which : String → Bool) (command : String) :
    (∀ first target, aliasFirstToken command = some first →
        aliasMap first = some target →
      ((which first = false ∧ which target = true) →
        resolveCommandAlias which command =
          (String.mk (command.toList.take
              (command.length - (pyLStrip command).length)) ++ target ++
            (pyLStrip command).drop first.length,
           some s!"{first} → {target}")) ∧
      ((which first = true ∨ which target = false) →
        resolveCommandAlias which command = (command, none))) ∧
    ((∀ first, aliasFirstToken command = some first → aliasMap first = none) →
      resolveCommandAlias which command = (command, none)) ∧
    (aliasFirstToken command = none →
      resolveCommandAlias which command = (command, none)) := by
  unfold resolveCommandAlias aliasFirstToken
  dsimp only
  by_cases h1 : pyLStrip command = ""
  · simp only [if_pos h1]
    exact ⟨fun _ _ h => absurd h (by simp), fun _ => by trivial, fun _ => by trivial⟩
  · simp only [if_neg h1]
    by_cases h2 : pyStartsWith (pyLStrip command) "\x27" = true ∨
        pyStartsWith (pyLStrip command) "\"" = true
    · simp only [if_pos h2]
      exact ⟨fun _ _ h => absurd h (by simp), fun _ => by trivial, fun _ => by trivial⟩
    · simp only [if_neg h2]
      rcases hsp : shlexSplit (pyLStrip command) with _ | parts
      · exact ⟨fun _ _ h => absurd h (by simp), fun _ => by trivial, fun _ => by trivial⟩
      · rcases parts with _ | ⟨first, rest⟩
        · exact ⟨fun _ _ h => absurd h (by simp), fun _ => by trivial,
            fun _ => by trivial⟩
        · dsimp only
          rcases ham : aliasMap first with _ | target
          · dsimp only
            refine ⟨?_, ?_, ?_⟩
            · intro f t hf ht
              obtain rfl : first = f := by simpa using hf
              rw [ham] at ht
              exact absurd ht (by simp)
            · intro _
              trivial
            · intro h
              exact absurd h (by simp)
          · dsimp only
            refine ⟨?_, ?_, ?_⟩
            · intro f t hf ht
              obtain rfl : first = f := by simpa using hf
              rw [ham] at ht
              obtain rfl : target = t := by simpa using ht
              constructor
              · rintro ⟨hw1, hw2⟩
                rw [if_neg (by simp [hw1]), if_neg (by simp [hw2])]
              · rintro (hw1 | hw2)
                · rw [if_pos (by simp [hw1])]
                · by_cases hwf : which first = true
                  · rw [if_pos (by simp [hwf])]
                  · rw [if_neg (by simp [hwf]), if_pos (by simp [hw2])]
            · intro h
              have := h first rfl
              rw [ham] at this
              exact absurd this (by simp)
            · intro h
              exact absurd h (by simp)

/-- C7 (witness): the alias characterisation applied to `"py -V"` on a
search path where only `python3` resolves. -/
theorem c7_alias_resolution_witness :
    resolveCommandAlias witnessWhich "py -V"
      = ("python3 -V", some "py → python3") := by
  have h := ((c7_alias_resolution witnessWhich "py -V").1 "py" "python3"
    (by decide) rfl).1 ⟨by decide, by decide⟩
  rw [h]
  decide

end R36Shell
